import Mathlib

/-!
# thermal-uploader: upload orchestration

A shallow embedding of `main.go` and `bushnet-api.go`.

Every interaction with the outside world (file system, the `avahi-resolve`
command, HTTP, the go-cptv parser, the Cacophony API client) is answered by an
environment `Env`, indexed by the number of events recorded before it, and is
recorded in a trace of `Event`s.  Go's `error` is `Option Error` (`none` is
`nil`).  Log output and the closing of files and response bodies are not
modelled.  The goroutines (the announcer of `startSignal`, the peer-presence
loop and the file-system listener of `makeTryUploadEvent`) are modelled one at
a time, not interleaved with the upload path; strings are sequences of
characters.
-/

namespace ThermalUploader

/-! ## Go string helpers (package `strings`), on character lists -/

/-- Go `strings.HasPrefix(s, p)`. -/
def startsWith : List Char → List Char → Bool
  | _, [] => true
  | [], _ :: _ => false
  | c :: s, d :: p => c == d && startsWith s p

/-- Go `strings.Contains(s, sub)`. -/
def containsChars : List Char → List Char → Bool
  | [], sub => startsWith [] sub
  | c :: s, sub => startsWith (c :: s) sub || containsChars s sub

/-- Go `strings.Split(s, string(sep))` for a one-character separator: the
fields between the separators, one more than there are separators. -/
def splitChars (sep : Char) : List Char → List (List Char)
  | [] => [[]]
  | c :: s =>
    if c = sep then [] :: splitChars sep s
    else
      match splitChars sep s with
      | [] => [[c]]
      | f :: fs => (c :: f) :: fs

/-- Go `strings.TrimSuffix(s, suffix)`. -/
def trimSuffix (s suffix : List Char) : List Char :=
  if startsWith s.reverse suffix.reverse then s.take (s.length - suffix.length) else s

/-- Go `strings.Join(elems, string(sep))`. -/
def joinChars (sep : Char) : List (List Char) → List Char
  | [] => []
  | [e] => e
  | e :: f :: rest => e ++ sep :: joinChars sep (f :: rest)

/-! ## Go path helpers (package `path/filepath`, Unix) -/

/-- Go `filepath.Split`: the path up to and including its last separator, and
what follows it. -/
def splitPathChars : List Char → List Char × List Char
  | [] => ([], [])
  | c :: s =>
    match splitPathChars s with
    | ([], file) => if c = '/' then ([c], file) else ([], c :: file)
    | (d :: dir, file) => (c :: d :: dir, file)

/-- One path element of `filepath.Clean`, on the stack of kept elements (last
kept element first): empty elements and `.` are dropped, `..` removes the
element before it, is dropped at the root, and is kept at the start of a
relative path. -/
def cleanStep (rooted : Bool) (kept : List (List Char)) (elem : List Char) : List (List Char) :=
  if elem = [] ∨ elem = ['.'] then kept
  else if elem = ['.', '.'] then
    match kept with
    | [] => if rooted then [] else [elem]
    | top :: rest => if top = ['.', '.'] then elem :: kept else rest
  else elem :: kept

/-- Go `filepath.Clean`, by the rules of its documentation. -/
def cleanChars (path : List Char) : List Char :=
  let rooted := startsWith path ['/']
  let kept := (splitChars '/' path).foldl (cleanStep rooted) []
  let body := joinChars '/' kept.reverse
  if rooted then '/' :: body
  else if body = [] then ['.'] else body

/-- Go `filepath.Join`: the elements from the first non-empty one on, joined by
the separator and cleaned; the empty string when all are empty. -/
def joinPathChars : List (List Char) → List Char
  | [] => []
  | e :: rest => if e = [] then joinPathChars rest else cleanChars (joinChars '/' (e :: rest))

/-- Go `filepath.Split` on strings. -/
def Split (path : String) : String × String :=
  (String.mk (splitPathChars path.data).1, String.mk (splitPathChars path.data).2)

/-- Go `filepath.Join` on strings. -/
def Join (elem : List String) : String :=
  String.mk (joinPathChars (elem.map String.data))

/-- The constant `cptvGlob` of main.go. -/
def cptvGlob : String := "*.cptv"

/-- The constant `failedUploadsDir` of main.go. -/
def failedUploadsDir : String := "failed-uploads"

/-! ## Data model -/

/-- A Go `error` value that is not nil. -/
abbrev Error := String

/-- The struct `cptvInfo` of main.go; `timestamp` is a `time.Time`, kept as a
number. -/
structure cptvInfo where
  timestamp : Int
  duration : Int
deriving DecidableEq, Repr

/-- The struct `BushnetAPI` of bushnet-api.go. -/
structure BushnetAPI where
  localName : String
  port : Int
  serverURL : String
  state : String
deriving DecidableEq, Repr

/-- A URL made by `fmt.Sprintf("http://%s:%d<path>", host, port)`. -/
structure URL where
  host : String
  port : Int
  path : String
deriving DecidableEq, Repr

/-- The interactions with the outside world, and two call marks
(`callUploadFile`, `callBushnetUploadFile`) recording that the function was
entered. -/
inductive Event where
  /-- `os.Open(name)` -/
  | osOpen (name : String)
  /-- the go-cptv parser reading the open file `name` -/
  | cptvRead (name : String)
  /-- `exec.Command("avahi-resolve", "-4", "-n", localName).Output()` -/
  | avahiResolve (localName : String)
  /-- `http.Get(url)` -/
  | httpGet (url : URL)
  /-- `client.Do` of the multipart POST request -/
  | httpPost (url : URL)
  /-- `api.UploadThermalRaw(info, reader over file name)` -/
  | uploadThermalRaw (info : cptvInfo) (name : String)
  /-- `os.Remove(name)` -/
  | osRemove (name : String)
  /-- `os.Rename(oldpath, newpath)` -/
  | osRename (oldpath newpath : String)
  /-- `filepath.Glob(pattern)` -/
  | glob (pattern : String)
  /-- `os.MkdirAll(path, 0755)` -/
  | mkdirAll (path : String)
  /-- `notify.Watch(dir, ...)` -/
  | notifyWatch (dir : String)
  /-- `ParseConfigFile(file)` -/
  | parseConfigFile (file : String)
  /-- `ReadPassword(file)` -/
  | readPassword (file : String)
  /-- `NewAPI(...)` -/
  | newAPI
  /-- `WritePassword(file, ...)` -/
  | writePassword (file : String)
  /-- a receive on the channel `tryUploadEvent` -/
  | recvTrigger
  /-- entry of `uploadFile(api, bushnetAPI, filename, info)` -/
  | callUploadFile (filename : String)
  /-- entry of `bushnetAPI.UploadFile(reader over file filename)` -/
  | callBushnetUploadFile (filename : String)
deriving DecidableEq, Repr

/-- Result of `os.Open`: a file, an error for which `os.IsNotExist` holds, or
another error. -/
inductive OpenResult where
  | ok
  | notExist (e : Error)
  | otherErr (e : Error)
deriving DecidableEq, Repr

/-- What the go-cptv parser finds in an open file: the errors (if any) of
`NewParser`, `Header` and `Timestamp`, the number of frames `Frame` yields,
and what ends them (`none` is `io.EOF`). -/
structure CPTVFile where
  newParser : Option Error
  header : Option Error
  timestamp : Except Error Int
  frames : Nat
  frameEnd : Option Error

/-- The struct `Config` as far as `runMain` reads it. -/
structure Config where
  Directory : String
  BushnetServerName : String
  BushnetServerPort : Int
deriving DecidableEq, Repr

/-- The outside world: the answer to each interaction, by the number of
events before it. -/
structure Env where
  osOpen : Nat → OpenResult
  cptv : Nat → CPTVFile
  avahi : Nat → Except Error String
  httpGet : Nat → Option Error
  createFormFile : Nat → Option Error
  newRequest : Nat → Option Error
  /-- `client.Do`: an error, or the status code and the result of reading the
  body -/
  clientDo : Nat → Except Error (Nat × Except Error String)
  uploadThermalRaw : Nat → Option Error
  osRemove : Nat → Option Error
  osRename : Nat → Option Error
  glob : Nat → List String
  mkdirAll : Nat → Option Error
  notifyWatch : Nat → Option Error
  /-- `procArgs().ConfigFile` -/
  configFile : String
  parseConfigFile : Nat → Except Error Config
  readPassword : Nat → Option Error
  /-- `NewAPI`: an error, or whether the device has just been registered -/
  newAPI : Nat → Except Error Bool
  writePassword : Nat → Option Error

/-- The program state: the shared `BushnetAPI` struct and the events so far. -/
structure World where
  bushnet : BushnetAPI
  trace : List Event
deriving DecidableEq, Repr

/-- Number of events so far. -/
def World.now (w : World) : Nat := w.trace.length

/-- Record an event. -/
def World.emit (w : World) (e : Event) : World := { w with trace := w.trace ++ [e] }

/-! ## bushnet-api.go -/

/-- The struct built by `NewBushnetAPI` (the goroutine it starts is
`BushnetAPI.startSignalStep`). -/
def NewBushnetAPI (localName : String) (port : Int) : BushnetAPI :=
  { localName := localName, port := port, serverURL := "", state := "FINISHED_UPLOADING" }

/-- The method `IsAvailable` of bushnet-api.go. -/
def BushnetAPI.IsAvailable (env : Env) (w : World) : Bool × World :=
  let out := env.avahi w.now
  let w := w.emit (.avahiResolve w.bushnet.localName)
  match out with
  | .error _ => (false, w)
  | .ok s =>
    if containsChars s.data "Failed to resolve host name".data then (false, w)
    else
      let sl := splitChars '\t' s.data
      if sl.length ≠ 2 then (false, w)
      else
        let s := sl.getD 1 []
        let w :=
          { w with bushnet := { w.bushnet with serverURL := String.mk (trimSuffix s ['\n']) } }
        let res := env.httpGet w.now
        let w := w.emit (.httpGet ⟨w.bushnet.serverURL, w.bushnet.port, ""⟩)
        match res with
        | some _ => (false, w)
        | none => (true, w)

/-- The method `sendIsUploading` of bushnet-api.go. -/
def BushnetAPI.sendIsUploading (_env : Env) (w : World) : World :=
  w.emit (.httpGet ⟨w.bushnet.serverURL, w.bushnet.port, "/uploading"⟩)

/-- The method `sendIsFinished` of bushnet-api.go. -/
def BushnetAPI.sendIsFinished (_env : Env) (w : World) : World :=
  w.emit (.httpGet ⟨w.bushnet.serverURL, w.bushnet.port, "/finished"⟩)

/-- One round of the loop of the goroutine started by `startSignal`. -/
def BushnetAPI.startSignalStep (env : Env) (w : World) : World :=
  match BushnetAPI.IsAvailable env w with
  | (true, w) =>
    if w.bushnet.state = "FINISHED_UPLOADING" then BushnetAPI.sendIsFinished env w
    else if w.bushnet.state = "UPLOADING" then BushnetAPI.sendIsUploading env w
    else w
  | (false, w) => w

/-- The method `UploadFile` of bushnet-api.go, for a reader over the file
`filename`. -/
def BushnetAPI.UploadFile (env : Env) (w : World) (filename : String) : Option Error × World :=
  let w := w.emit (.callBushnetUploadFile filename)
  let w := BushnetAPI.sendIsUploading env w
  match env.createFormFile w.now with
  | some e => (some e, w)
  | none =>
    match env.newRequest w.now with
    | some e => (some e, w)
    | none =>
      let resp := env.clientDo w.now
      let w := w.emit (.httpPost ⟨w.bushnet.serverURL, w.bushnet.port, "/upload_cptv"⟩)
      match resp with
      | .error e => (some e, w)
      | .ok (status, body) =>
        if status ≠ 200 then
          match body with
          | .error e => (some e, w)
          | .ok _ => (some "non 200 status code from local server", w)
        else (none, w)

/-! ## main.go -/

/-- The frame loop of `extractCPTVInfo`: `frames` counts the frames read so
far, `left` the frames `p.Frame()` still yields before it ends with `last`. -/
def countFrames (last : Option Error) : (left : Nat) → (frames : Nat) → Except Error Nat
  | 0, frames =>
    match last with
    | none => .ok frames
    | some e => .error e
  | left + 1, frames => countFrames last left (frames + 1)

/-- The function `extractCPTVInfo` of main.go. -/
def extractCPTVInfo (env : Env) (w : World) (filename : String) :
    Except Error cptvInfo × World :=
  let file := env.osOpen w.now
  let w := w.emit (.osOpen filename)
  match file with
  | .notExist e => (.error e, w)
  | .otherErr e => (.error e, w)
  | .ok =>
    let c := env.cptv w.now
    let w := w.emit (.cptvRead filename)
    match c.newParser with
    | some e => (.error e, w)
    | none =>
      match c.header with
      | some e => (.error e, w)
      | none =>
        match c.timestamp with
        | .error e => (.error e, w)
        | .ok timestamp =>
          match countFrames c.frameEnd c.frames 0 with
          | .error e => (.error e, w)
          | .ok frames =>
            (.ok { timestamp := timestamp, duration := ((frames / 9 : Nat) : Int) }, w)

/-- The function `uploadFile` of main.go. -/
def uploadFile (env : Env) (w : World) (filename : String) (info : cptvInfo) :
    Option Error × World :=
  let w := w.emit (.callUploadFile filename)
  let f := env.osOpen w.now
  let w := w.emit (.osOpen filename)
  match f with
  | .notExist _ => (none, w)
  | .otherErr e => (some e, w)
  | .ok =>
    match BushnetAPI.IsAvailable env w with
    | (true, w) => BushnetAPI.UploadFile env w filename
    | (false, w) =>
      let err := env.uploadThermalRaw w.now
      (err, w.emit (.uploadThermalRaw info filename))

/-- The retry loop of `uploadFileWithRetries`, with `tries = remainingTries + 1`
rounds to go.  It answers `true` when it returned from inside the loop (after
an attempt without error), `false` when the loop ran out. -/
def retryLoop (env : Env) (filename : String) (info : cptvInfo) :
    (tries : Nat) → World → Bool × World
  | 0, w => (false, w)
  | tries + 1, w =>
    match uploadFile env w filename info with
    | (none, w) => (true, w.emit (.osRemove filename))
    | (some _, w) => retryLoop env filename info tries w

/-- The function `uploadFileWithRetries` of main.go. -/
def uploadFileWithRetries (env : Env) (w : World) (filename : String) : Option Error × World :=
  match extractCPTVInfo env w filename with
  | (.error _, w) =>
    let err := env.osRemove w.now
    (err, w.emit (.osRemove filename))
  | (.ok info, w) =>
    match retryLoop env filename info 3 w with
    | (true, w) => (none, w)
    | (false, w) =>
      let err := env.osRename w.now
      (err,
        w.emit
          (.osRename filename (Join [(Split filename).1, failedUploadsDir, (Split filename).2])))

/-- The loop of `uploadFiles` over the matches. -/
def uploadFilesLoop (env : Env) : List String → World → Option Error × World
  | [], w => (none, w)
  | filename :: rest, w =>
    match uploadFileWithRetries env w filename with
    | (some err, w) => (some err, w)
    | (none, w) => uploadFilesLoop env rest w

/-- The function `uploadFiles` of main.go. -/
def uploadFiles (env : Env) (w : World) (directory : String) : Option Error × World :=
  let matches_ := env.glob w.now
  let w := w.emit (.glob (Join [directory, cptvGlob]))
  uploadFilesLoop env matches_ w

/-- The function `genPrivConfigFilename` of main.go. -/
def genPrivConfigFilename (confFilename : String) : String :=
  let bareFilename := String.mk (trimSuffix (Split confFilename).2.data ".yaml".data)
  Join [(Split confFilename).1, bareFilename ++ "-priv.yaml"]

/-- The function `makeTryUploadEvent` of main.go, as far as it acts before it
returns: it starts the goroutine of `peerPresenceLoop`, sets up the directory
watch and starts the goroutine forwarding its events. -/
def makeTryUploadEvent (env : Env) (w : World) (fileDirectory : String) : Option Error × World :=
  let err := env.notifyWatch w.now
  (err, w.emit (.notifyWatch fileDirectory))

/-- The `for` loop of `runMain`, for at most `passes` rounds; `none` when it is
still running after them. -/
def runMainLoop (env : Env) (directory : String) :
    (passes : Nat) → World → Option Error × World
  | 0, w => (none, w)
  | passes + 1, w =>
    match uploadFiles env w directory with
    | (some err, w) => (some err, w)
    | (none, w) => runMainLoop env directory passes (w.emit .recvTrigger)

/-- The function `runMain` of main.go, its loop run for at most `passes`
rounds: the error it returns (`none` while the loop is still running) and the
events. -/
def runMain (env : Env) (passes : Nat) : Option Error × List Event :=
  let t : List Event := [.parseConfigFile env.configFile]
  match env.parseConfigFile 0 with
  | .error err => (some ("configuration error: " ++ err), t)
  | .ok conf =>
    let privConfigFilename := genPrivConfigFilename env.configFile
    let err := env.readPassword t.length
    let t := t ++ [.readPassword privConfigFilename]
    match err with
    | some err => (some err, t)
    | none =>
      let api := env.newAPI t.length
      let t := t ++ [.newAPI]
      match api with
      | .error err => (some err, t)
      | .ok justRegistered =>
        let err := if justRegistered then env.writePassword t.length else none
        let t := if justRegistered then t ++ [.writePassword privConfigFilename] else t
        match err with
        | some err => (some err, t)
        | none =>
          let w : World :=
            { bushnet := NewBushnetAPI conf.BushnetServerName conf.BushnetServerPort, trace := t }
          let w := w.emit (.mkdirAll (Join [conf.Directory, failedUploadsDir]))
          match makeTryUploadEvent env w conf.Directory with
          | (some err, w) => (some err, w.trace)
          | (none, w) =>
            ((runMainLoop env conf.Directory passes w).1,
              (runMainLoop env conf.Directory passes w).2.trace)

mutual
/-- The peer-presence goroutine of `makeTryUploadEvent`, run on the results of
its successive `bushnetAPI.IsAvailable()` calls: the number of sends on
`tryUploadEvent`.  This is the outer loop, which sends when a call answers
true and then enters the inner loop. -/
def peerPresenceLoop : List Bool → Nat
  | [] => 0
  | true :: polls => 1 + peerPresentLoop polls
  | false :: polls => peerPresenceLoop polls
/-- The inner loop `for bushnetAPI.IsAvailable() { ... }`: it sends nothing and
goes back to the outer loop when a call answers false. -/
def peerPresentLoop : List Bool → Nat
  | [] => 0
  | true :: polls => peerPresentLoop polls
  | false :: polls => peerPresenceLoop polls
end

/-- The unavailable-to-available transitions of a sequence of probe results:
the results that are true after `prev` or after a false result. -/
def risingEdges (prev : Bool) : List Bool → Nat
  | [] => 0
  | b :: polls => (if b = true ∧ prev = false then 1 else 0) + risingEdges b polls

/-! ## Reading traces -/

/-- The events recorded between world `w` and a later world `w2`. -/
def eventsSince (w w2 : World) : List Event := w2.trace.drop w.trace.length

/-- An upload attempt: an entry of `uploadFile`. -/
def Event.isAttempt : Event → Bool
  | .callUploadFile _ => true
  | _ => false

/-- A probe of the peer: a run of the resolver by `IsAvailable`. -/
def Event.isProbe : Event → Bool
  | .avahiResolve _ => true
  | _ => false

/-- An invocation of the peer upload `BushnetAPI.UploadFile`. -/
def Event.isPeerUpload : Event → Bool
  | .callBushnetUploadFile _ => true
  | _ => false

/-- An invocation of the remote API raw upload. -/
def Event.isRemoteUpload : Event → Bool
  | .uploadThermalRaw _ _ => true
  | _ => false

/-- A file deletion. -/
def Event.isRemove : Event → Bool
  | .osRemove _ => true
  | _ => false

/-- A rename. -/
def Event.isRename : Event → Bool
  | .osRename _ _ => true
  | _ => false

/-- An HTTP request. -/
def Event.isHTTP : Event → Bool
  | .httpGet _ => true
  | .httpPost _ => true
  | _ => false

/-- The world after `k` calls of `uploadFile` in a row. -/
def afterAttempts (env : Env) (filename : String) (info : cptvInfo) (k : Nat) (w : World) :
    World :=
  (fun w => (uploadFile env w filename info).2)^[k] w

/-- The error returned by the attempt made after `k` earlier ones. -/
def attemptResult (env : Env) (filename : String) (info : cptvInfo) (w : World) (k : Nat) :
    Option Error :=
  (uploadFile env (afterAttempts env filename info k w) filename info).1

/-- The address `IsAvailable` takes from the resolver's answer, when it takes one. -/
def resolvedAddress : Except Error String → Option String
  | .error _ => none
  | .ok s =>
    if containsChars s.data "Failed to resolve host name".data then none
    else if (splitChars '\t' s.data).length ≠ 2 then none
    else some (String.mk (trimSuffix ((splitChars '\t' s.data).getD 1 []) ['\n']))

/-- The events the counters below look at: all but file opening, parsing and
HTTP requests. -/
def Event.counted : Event → Bool
  | .osOpen _ => false
  | .cptvRead _ => false
  | .httpGet _ => false
  | .httpPost _ => false
  | _ => true

/-- World `w2` comes after `w`: its trace extends the trace of `w`. -/
def Later (w w2 : World) : Prop := w2.trace = w.trace ++ eventsSince w w2

/-- A path element that `filepath.Clean` keeps as it is. -/
def properName (name : List Char) : Prop :=
  name ≠ [] ∧ name ≠ ['.'] ∧ name ≠ ['.', '.'] ∧ '/' ∉ name

/-- An environment in which the peer does not resolve, files open and parse
(90 frames), and every other operation succeeds. -/
def calmEnv : Env where
  osOpen := fun _ => .ok
  cptv := fun _ =>
    { newParser := none, header := none, timestamp := .ok 1500000000, frames := 90,
      frameEnd := none }
  avahi := fun _ => .error "exit status 1"
  httpGet := fun _ => some "connection refused"
  createFormFile := fun _ => none
  newRequest := fun _ => none
  clientDo := fun _ => .error "connection refused"
  uploadThermalRaw := fun _ => none
  osRemove := fun _ => none
  osRename := fun _ => none
  glob := fun _ => []
  mkdirAll := fun _ => none
  notifyWatch := fun _ => none
  configFile := "/etc/thermal-uploader.yaml"
  parseConfigFile := fun _ =>
    .ok { Directory := "/var/spool/cptv", BushnetServerName := "bushnet.local",
          BushnetServerPort := 8080 }
  readPassword := fun _ => none
  newAPI := fun _ => .ok false
  writePassword := fun _ => none

/-- The remote API refuses every upload. -/
def remoteDownEnv : Env := { calmEnv with uploadThermalRaw := fun _ => some "502 Bad Gateway" }

/-- The peer resolves and answers, but does not accept the upload POST. -/
def peerRejectsEnv : Env :=
  { calmEnv with
    avahi := fun _ => .ok "bushnet.local\t192.168.1.5\n"
    httpGet := fun _ => none
    clientDo := fun _ => .ok (500, .ok "busy") }

/-- A world at start-up: the struct of `NewBushnetAPI`, no events. -/
def startWorld : World := { bushnet := NewBushnetAPI "bushnet.local" 8080, trace := [] }

/-- The metadata of a recording of 90 frames. -/
def tenSeconds : cptvInfo := { timestamp := 1500000000, duration := 10 }

/-- The directory creation fails; everything else is as in `calmEnv`. -/
def mkdirFailsEnv : Env := { calmEnv with mkdirAll := fun _ => some "mkdir: permission denied" }

/-- The clean-up step of `uploadFileWithRetries` for `filename` at world `w` does
not fail: the deletion when metadata extraction fails, the rename when it
succeeds and the three attempts fail. -/
def cleanupOk (env : Env) (w : World) (filename : String) : Prop :=
  match (extractCPTVInfo env w filename).1 with
  | .error _ => env.osRemove (extractCPTVInfo env w filename).2.now = none
  | .ok info =>
    (∀ k < 3, attemptResult env filename info (extractCPTVInfo env w filename).2 k ≠ none) →
      env.osRename (afterAttempts env filename info 3 (extractCPTVInfo env w filename).2).now = none

/-- No clean-up step fails in the pass over `files` from world `w`. -/
def passOk (env : Env) : List String → World → Prop
  | [], _ => True
  | filename :: rest, w =>
    cleanupOk env w filename ∧ passOk env rest (uploadFileWithRetries env w filename).2

/-- The first two uploads to the remote API fail, later ones succeed. -/
def remoteFlakyEnv : Env :=
  { calmEnv with uploadThermalRaw := fun t => if t < 9 then some "502 Bad Gateway" else none }

/-- Parsing fails at the header. -/
def corruptEnv : Env :=
  { calmEnv with
    cptv := fun _ =>
      { newParser := none, header := some "unexpected EOF", timestamp := .ok 0, frames := 0,
        frameEnd := none } }

/-- The peer resolves, answers and accepts uploads. -/
def peerUpEnv : Env :=
  { calmEnv with
    avahi := fun _ => .ok "bushnet.local\t192.168.1.5\n"
    httpGet := fun _ => none
    clientDo := fun _ => .ok (200, .ok "") }

/-- The file opens for metadata extraction but is gone afterwards. -/
def vanishedEnv : Env :=
  { calmEnv with osOpen := fun t => if t = 0 then .ok else .notExist "no such file or directory" }

/-- The file exists but cannot be opened for the upload. -/
def unreadableEnv : Env :=
  { calmEnv with osOpen := fun _ => .otherErr "too many open files" }

/-- Two files are pending, the first fails to parse, and deleting fails. -/
def stuckDeleteEnv : Env :=
  { corruptEnv with
    glob := fun _ => ["/var/spool/cptv/a.cptv", "/var/spool/cptv/b.cptv"]
    osRemove := fun _ => some "permission denied" }

/-- Two files are pending, the remote API is down, and the rename into
failed-uploads fails. -/
def stuckRenameEnv : Env :=
  { remoteDownEnv with
    glob := fun _ => ["/var/spool/cptv/a.cptv", "/var/spool/cptv/b.cptv"]
    osRename := fun _ => some "no such file or directory" }

/-- Two files are pending, the first fails to parse, the remote API accepts. -/
def twoFilesEnv : Env :=
  { calmEnv with
    glob := fun _ => ["/var/spool/cptv/a.cptv", "/var/spool/cptv/b.cptv"]
    cptv := fun t =>
      if t < 3 then
        { newParser := none, header := none, timestamp := .ok 1500000000, frames := 90,
          frameEnd := none }
      else
        { newParser := none, header := some "unexpected EOF", timestamp := .ok 0, frames := 0,
          frameEnd := none } }

/-! ## Lemmas -/

@[simp] theorem emit_trace (w : World) (e : Event) : (w.emit e).trace = w.trace ++ [e] := rfl

@[simp] theorem emit_bushnet (w : World) (e : Event) : (w.emit e).bushnet = w.bushnet := rfl

@[simp] theorem emit_now (w : World) (e : Event) : (w.emit e).now = w.now + 1 := by
  simp [World.now]

theorem eventsSince_of_append {w w2 : World} {d : List Event} (h : w2.trace = w.trace ++ d) :
    eventsSince w w2 = d := by
  simp [eventsSince, h]

theorem IsAvailable_eq (env : Env) (w : World) :
    BushnetAPI.IsAvailable env w =
      match resolvedAddress (env.avahi w.now) with
      | none => (false, w.emit (.avahiResolve w.bushnet.localName))
      | some a =>
        (decide (env.httpGet (w.now + 1) = none),
          { bushnet := { w.bushnet with serverURL := a },
            trace := w.trace ++ [.avahiResolve w.bushnet.localName, .httpGet ⟨a, w.bushnet.port, ""⟩] }) := by
  unfold BushnetAPI.IsAvailable resolvedAddress
  cases h : env.avahi w.now with
  | error e => simp
  | ok s =>
    simp only
    by_cases h1 : containsChars s.data "Failed to resolve host name".data = true
    · simp [h1]
    · by_cases h2 : (splitChars '\t' s.data).length ≠ 2
      · simp [h1, h2]
      · simp only [h1, h2, if_false]
        cases h3 : env.httpGet (w.now + 1) <;> simp only [World.now] at h3 <;> simp [World.emit, World.now, h3]

theorem later_of_append {w w2 : World} {d : List Event} (h : w2.trace = w.trace ++ d) :
    Later w w2 := by
  simp [Later, eventsSince, h]

theorem later_refl (w : World) : Later w w := later_of_append (d := []) (by simp)

theorem later_emit (w : World) (e : Event) : Later w (w.emit e) := later_of_append (d := [e]) rfl

theorem eventsSince_self (w : World) : eventsSince w w = [] := by simp [eventsSince]

theorem eventsSince_trans {w w1 w2 : World} (h1 : Later w w1) (h2 : Later w1 w2) :
    eventsSince w w2 = eventsSince w w1 ++ eventsSince w1 w2 := by
  unfold Later at h1 h2
  have h : w2.trace = w.trace ++ (eventsSince w w1 ++ eventsSince w1 w2) := by
    rw [h2, h1, List.append_assoc]
  exact eventsSince_of_append h

theorem later_trans {w w1 w2 : World} (h1 : Later w w1) (h2 : Later w1 w2) : Later w w2 := by
  have h := eventsSince_trans h1 h2
  unfold Later at *
  rw [h, ← List.append_assoc, ← h1, ← h2]

theorem eventsSince_emit {w w1 : World} (h1 : Later w w1) (e : Event) :
    eventsSince w (w1.emit e) = eventsSince w w1 ++ [e] := by
  rw [eventsSince_trans h1 (later_emit w1 e)]
  simp [eventsSince]

theorem IsAvailable_delta (env : Env) (w : World) :
    Later w (BushnetAPI.IsAvailable env w).2
      ∧ (eventsSince w (BushnetAPI.IsAvailable env w).2).filter Event.counted
          = [.avahiResolve w.bushnet.localName] := by
  rw [IsAvailable_eq]
  cases resolvedAddress (env.avahi w.now) <;> simp [Later, eventsSince, Event.counted]

theorem IsAvailable_bushnet (env : Env) (w : World) :
    (BushnetAPI.IsAvailable env w).2.bushnet.state = w.bushnet.state
      ∧ (BushnetAPI.IsAvailable env w).2.bushnet.localName = w.bushnet.localName
      ∧ (BushnetAPI.IsAvailable env w).2.bushnet.port = w.bushnet.port := by
  rw [IsAvailable_eq]
  cases resolvedAddress (env.avahi w.now) <;> simp

theorem UploadFile_delta (env : Env) (w : World) (filename : String) :
    Later w (BushnetAPI.UploadFile env w filename).2
      ∧ (eventsSince w (BushnetAPI.UploadFile env w filename).2).filter Event.counted
          = [.callBushnetUploadFile filename] := by
  unfold BushnetAPI.UploadFile BushnetAPI.sendIsUploading
  simp only
  repeat' split
  all_goals simp [Later, eventsSince, Event.counted]

theorem UploadFile_bushnet (env : Env) (w : World) (filename : String) :
    (BushnetAPI.UploadFile env w filename).2.bushnet = w.bushnet := by
  unfold BushnetAPI.UploadFile BushnetAPI.sendIsUploading
  simp only
  repeat' split
  all_goals rfl

theorem extractCPTVInfo_delta (env : Env) (w : World) (filename : String) :
    Later w (extractCPTVInfo env w filename).2
      ∧ (eventsSince w (extractCPTVInfo env w filename).2 = [.osOpen filename]
          ∨ eventsSince w (extractCPTVInfo env w filename).2 = [.osOpen filename, .cptvRead filename])
      ∧ (extractCPTVInfo env w filename).2.bushnet = w.bushnet := by
  unfold extractCPTVInfo
  simp only
  repeat' split
  all_goals simp [Later, eventsSince]

theorem uploadFile_delta (env : Env) (w : World) (filename : String) (info : cptvInfo) :
    Later w (uploadFile env w filename info).2
      ∧ (eventsSince w (uploadFile env w filename info).2).filter Event.counted
          = .callUploadFile filename ::
            (match env.osOpen (w.now + 1) with
             | .ok =>
               [.avahiResolve w.bushnet.localName,
                if (BushnetAPI.IsAvailable env
                      ((w.emit (.callUploadFile filename)).emit (.osOpen filename))).1
                then .callBushnetUploadFile filename else .uploadThermalRaw info filename]
             | _ => []) := by
  have hc : Later w ((w.emit (.callUploadFile filename)).emit (.osOpen filename)) :=
    later_trans (later_emit _ _) (later_emit _ _)
  have hA := IsAvailable_delta env ((w.emit (.callUploadFile filename)).emit (.osOpen filename))
  have hU := fun w2 => UploadFile_delta env w2 filename
  unfold uploadFile
  simp only [emit_now]
  cases h : env.osOpen (w.now + 1) with
  | notExist e => simp [Later, eventsSince, Event.counted]
  | otherErr e => simp [Later, eventsSince, Event.counted]
  | ok =>
    simp only
    obtain ⟨hL, hF⟩ := hA
    have hce : eventsSince w ((w.emit (.callUploadFile filename)).emit (.osOpen filename))
        = [.callUploadFile filename, .osOpen filename] := by simp [eventsSince]
    simp only [emit_bushnet] at hF
    generalize BushnetAPI.IsAvailable env
      ((w.emit (.callUploadFile filename)).emit (.osOpen filename)) = r at hL hF ⊢
    obtain ⟨b, w2⟩ := r
    have hw2 := later_trans hc hL
    cases b with
    | true =>
      obtain ⟨hL2, hF2⟩ := hU w2
      refine ⟨later_trans hw2 hL2, ?_⟩
      rw [eventsSince_trans hw2 hL2, eventsSince_trans hc hL, hce]
      simp only [List.filter_append, hF, hF2]
      simp [Event.counted]
    | false =>
      refine ⟨later_trans hw2 (later_emit _ _), ?_⟩
      rw [eventsSince_emit hw2, eventsSince_trans hc hL, hce]
      simp only [List.filter_append, hF]
      simp [Event.counted]

theorem countP_counted (p : Event → Bool) (hp : ∀ e, p e = true → e.counted = true)
    (d : List Event) : d.countP p = (d.filter Event.counted).countP p := by
  induction d with
  | nil => rfl
  | cons e d ih =>
    by_cases hc : e.counted = true
    · simp [List.filter_cons, hc, List.countP_cons, ih]
    · have hpe : p e = false := by
        cases h : p e
        · rfl
        · exact absurd (hp e h) hc
      simp [List.filter_cons, hc, List.countP_cons, ih, hpe]

theorem afterAttempts_succ (env : Env) (filename : String) (info : cptvInfo) (k : Nat) (w : World) :
    afterAttempts env filename info (k + 1) w
      = afterAttempts env filename info k (uploadFile env w filename info).2 := rfl

theorem attemptResult_succ (env : Env) (filename : String) (info : cptvInfo) (k : Nat) (w : World) :
    attemptResult env filename info w (k + 1)
      = attemptResult env filename info (uploadFile env w filename info).2 k := rfl

theorem retryLoop_succ (env : Env) (filename : String) (info : cptvInfo) (n : Nat) (w : World) :
    retryLoop env filename info (n + 1) w
      = match uploadFile env w filename info with
        | (none, w) => (true, w.emit (.osRemove filename))
        | (some _, w) => retryLoop env filename info n w := rfl

theorem retryLoop_fail (env : Env) (filename : String) (info : cptvInfo) :
    ∀ (n : Nat) (w : World), (∀ k < n, attemptResult env filename info w k ≠ none) →
      retryLoop env filename info n w = (false, afterAttempts env filename info n w) := by
  intro n
  induction n with
  | zero => intro w _; rfl
  | succ n ih =>
    intro w h
    have h0 : (uploadFile env w filename info).1 ≠ none := h 0 (Nat.succ_pos n)
    have hrest : ∀ k < n, attemptResult env filename info (uploadFile env w filename info).2 k ≠ none :=
      fun k hk => by
        rw [← attemptResult_succ]
        exact h (k + 1) (Nat.succ_lt_succ hk)
    rw [afterAttempts_succ, ← ih _ hrest]
    rw [retryLoop_succ]
    cases hu : uploadFile env w filename info with
    | mk err w1 =>
      cases err with
      | none => rw [hu] at h0; exact absurd rfl h0
      | some e => rfl

theorem retryLoop_success (env : Env) (filename : String) (info : cptvInfo) :
    ∀ (j n : Nat) (w : World), j < n → (∀ k < j, attemptResult env filename info w k ≠ none) →
      attemptResult env filename info w j = none →
      retryLoop env filename info n w
        = (true, (afterAttempts env filename info (j + 1) w).emit (.osRemove filename)) := by
  intro j
  induction j with
  | zero =>
    intro n w hn _ h0
    obtain ⟨m, rfl⟩ : ∃ m, n = m + 1 := ⟨n - 1, by omega⟩
    have h0 : (uploadFile env w filename info).1 = none := h0
    rw [retryLoop_succ]
    show _ = (true, (uploadFile env w filename info).2.emit (.osRemove filename))
    cases hu : uploadFile env w filename info with
    | mk err w1 =>
      cases err with
      | none => rfl
      | some e => rw [hu] at h0; cases h0
  | succ j ih =>
    intro n w hn h hj
    obtain ⟨m, rfl⟩ : ∃ m, n = m + 1 := ⟨n - 1, by omega⟩
    have h0 : (uploadFile env w filename info).1 ≠ none := h 0 (Nat.succ_pos j)
    have hrest : ∀ k < j, attemptResult env filename info (uploadFile env w filename info).2 k ≠ none :=
      fun k hk => by
        rw [← attemptResult_succ]
        exact h (k + 1) (Nat.succ_lt_succ hk)
    have := ih m (uploadFile env w filename info).2 (by omega) hrest hj
    rw [afterAttempts_succ, ← this]
    rw [retryLoop_succ]
    cases hu : uploadFile env w filename info with
    | mk err w1 =>
      cases err with
      | none => rw [hu] at h0; exact absurd rfl h0
      | some e => rfl

theorem uploadFile_later (env : Env) (w : World) (filename : String) (info : cptvInfo) :
    Later w (uploadFile env w filename info).2 := (uploadFile_delta env w filename info).1

theorem uploadFile_count (p : Event → Bool) (hp : ∀ e, p e = true → e.counted = true)
    (env : Env) (w : World) (filename : String) (info : cptvInfo) :
    (eventsSince w (uploadFile env w filename info).2).countP p
      = ((eventsSince w (uploadFile env w filename info).2).filter Event.counted).countP p :=
  countP_counted p hp _

theorem uploadFile_attempts (env : Env) (w : World) (filename : String) (info : cptvInfo) :
    (eventsSince w (uploadFile env w filename info).2).countP Event.isAttempt = 1 := by
  rw [uploadFile_count _ (by intro e; cases e <;> simp [Event.isAttempt, Event.counted]),
    (uploadFile_delta env w filename info).2]
  cases env.osOpen (w.now + 1) with
  | ok =>
    by_cases hA : (BushnetAPI.IsAvailable env
        ((w.emit (.callUploadFile filename)).emit (.osOpen filename))).1 = true <;>
      simp [hA, Event.isAttempt, List.countP_cons]
  | notExist e => simp [Event.isAttempt, List.countP_cons]
  | otherErr e => simp [Event.isAttempt, List.countP_cons]

theorem uploadFile_removes (env : Env) (w : World) (filename : String) (info : cptvInfo) :
    (eventsSince w (uploadFile env w filename info).2).countP Event.isRemove = 0 := by
  rw [uploadFile_count _ (by intro e; cases e <;> simp [Event.isRemove, Event.counted]),
    (uploadFile_delta env w filename info).2]
  cases env.osOpen (w.now + 1) with
  | ok =>
    by_cases hA : (BushnetAPI.IsAvailable env
        ((w.emit (.callUploadFile filename)).emit (.osOpen filename))).1 = true <;>
      simp [hA, Event.isRemove, List.countP_cons]
  | notExist e => simp [Event.isRemove, List.countP_cons]
  | otherErr e => simp [Event.isRemove, List.countP_cons]

theorem uploadFile_renames (env : Env) (w : World) (filename : String) (info : cptvInfo) :
    (eventsSince w (uploadFile env w filename info).2).countP Event.isRename = 0 := by
  rw [uploadFile_count _ (by intro e; cases e <;> simp [Event.isRename, Event.counted]),
    (uploadFile_delta env w filename info).2]
  cases env.osOpen (w.now + 1) with
  | ok =>
    by_cases hA : (BushnetAPI.IsAvailable env
        ((w.emit (.callUploadFile filename)).emit (.osOpen filename))).1 = true <;>
      simp [hA, Event.isRename, List.countP_cons]
  | notExist e => simp [Event.isRename, List.countP_cons]
  | otherErr e => simp [Event.isRename, List.countP_cons]

theorem afterAttempts_count (env : Env) (filename : String) (info : cptvInfo) :
    ∀ (k : Nat) (w : World),
      Later w (afterAttempts env filename info k w)
      ∧ (eventsSince w (afterAttempts env filename info k w)).countP Event.isAttempt = k
      ∧ (eventsSince w (afterAttempts env filename info k w)).countP Event.isRemove = 0
      ∧ (eventsSince w (afterAttempts env filename info k w)).countP Event.isRename = 0 := by
  intro k
  induction k with
  | zero =>
    intro w
    exact ⟨later_refl w, by simp [afterAttempts, eventsSince_self],
      by simp [afterAttempts, eventsSince_self], by simp [afterAttempts, eventsSince_self]⟩
  | succ k ih =>
    intro w
    obtain ⟨hL, h1, h2, h3⟩ := ih (uploadFile env w filename info).2
    have hu := uploadFile_later env w filename info
    rw [afterAttempts_succ]
    refine ⟨later_trans hu hL, ?_, ?_, ?_⟩
    · rw [eventsSince_trans hu hL, List.countP_append, h1, uploadFile_attempts]; omega
    · rw [eventsSince_trans hu hL, List.countP_append, h2, uploadFile_removes]
    · rw [eventsSince_trans hu hL, List.countP_append, h3, uploadFile_renames]

theorem uploadFileWithRetries_ok (env : Env) (w : World) (filename : String) (info : cptvInfo)
    (hinfo : (extractCPTVInfo env w filename).1 = .ok info) :
    uploadFileWithRetries env w filename
      = match retryLoop env filename info 3 (extractCPTVInfo env w filename).2 with
        | (true, w) => (none, w)
        | (false, w) =>
          (env.osRename w.now,
            w.emit (.osRename filename
              (Join [(Split filename).1, failedUploadsDir, (Split filename).2]))) := by
  unfold uploadFileWithRetries
  cases he : extractCPTVInfo env w filename with
  | mk r w1 =>
    rw [he] at hinfo
    cases r with
    | error e => cases hinfo
    | ok i =>
      cases hinfo
      rfl

theorem uploadFileWithRetries_error (env : Env) (w : World) (filename : String) (e : Error)
    (hinfo : (extractCPTVInfo env w filename).1 = .error e) :
    uploadFileWithRetries env w filename
      = (env.osRemove (extractCPTVInfo env w filename).2.now,
          (extractCPTVInfo env w filename).2.emit (.osRemove filename)) := by
  unfold uploadFileWithRetries
  cases he : extractCPTVInfo env w filename with
  | mk r w1 =>
    rw [he] at hinfo
    cases r with
    | error e => rfl
    | ok i => cases hinfo

theorem extractCPTVInfo_count (p : Event → Bool) (hp : ∀ e, p e = true → e.counted = true)
    (env : Env) (w : World) (filename : String) :
    (eventsSince w (extractCPTVInfo env w filename).2).countP p = 0 := by
  rw [countP_counted p hp]
  rcases (extractCPTVInfo_delta env w filename).2.1 with h | h <;> rw [h] <;> rfl

theorem isAttempt_counted : ∀ e, Event.isAttempt e = true → e.counted = true := by
  intro e; cases e <;> simp [Event.isAttempt, Event.counted]

theorem isRemove_counted : ∀ e, Event.isRemove e = true → e.counted = true := by
  intro e; cases e <;> simp [Event.isRemove, Event.counted]

theorem isRename_counted : ∀ e, Event.isRename e = true → e.counted = true := by
  intro e; cases e <;> simp [Event.isRename, Event.counted]

theorem isProbe_counted : ∀ e, Event.isProbe e = true → e.counted = true := by
  intro e; cases e <;> simp [Event.isProbe, Event.counted]

theorem isPeerUpload_counted : ∀ e, Event.isPeerUpload e = true → e.counted = true := by
  intro e; cases e <;> simp [Event.isPeerUpload, Event.counted]

theorem isRemoteUpload_counted : ∀ e, Event.isRemoteUpload e = true → e.counted = true := by
  intro e; cases e <;> simp [Event.isRemoteUpload, Event.counted]

theorem splitPathChars_noSep : ∀ (s : List Char), '/' ∉ s → splitPathChars s = ([], s) := by
  intro s
  induction s with
  | nil => intro _; rfl
  | cons c s ih =>
    intro h
    have hc : c ≠ '/' := fun hc => h (by simp [hc])
    have hs : '/' ∉ s := fun hs => h (List.mem_cons_of_mem _ hs)
    simp [splitPathChars, ih hs, hc]

theorem splitPathChars_snd_noSep : ∀ (s : List Char), '/' ∉ (splitPathChars s).2 := by
  intro s
  induction s with
  | nil => simp [splitPathChars]
  | cons c s ih =>
    unfold splitPathChars
    cases h : splitPathChars s with
    | mk dir file =>
      rw [h] at ih
      cases dir with
      | nil =>
        by_cases hc : c = '/'
        · simpa [hc] using ih
        · have : '/' ≠ c := fun h => hc h.symm
          simpa [hc, this] using ih
      | cons d dir => simpa using ih

theorem splitPathChars_append (x name : List Char) (h : '/' ∉ name) :
    splitPathChars (x ++ '/' :: name) = (x ++ ['/'], name) := by
  induction x with
  | nil => simp [splitPathChars, splitPathChars_noSep name h]
  | cons c x ih =>
    rw [List.cons_append, splitPathChars, ih]
    cases x <;> rfl

theorem splitChars_ne_nil (sep : Char) : ∀ (s : List Char), splitChars sep s ≠ [] := by
  intro s
  induction s with
  | nil => simp [splitChars]
  | cons c s ih =>
    unfold splitChars
    by_cases hc : c = sep
    · simp [hc]
    · simp only [hc, if_false]
      cases splitChars sep s <;> simp

theorem splitChars_noSep (sep : Char) : ∀ (s : List Char), sep ∉ s → splitChars sep s = [s] := by
  intro s
  induction s with
  | nil => intro _; rfl
  | cons c s ih =>
    intro h
    have hc : c ≠ sep := fun hc => h (by simp [hc])
    have hs : sep ∉ s := fun hs => h (List.mem_cons_of_mem _ hs)
    simp [splitChars, ih hs, hc]

theorem splitChars_append (sep : Char) (a b : List Char) :
    splitChars sep (a ++ sep :: b) = splitChars sep a ++ splitChars sep b := by
  induction a with
  | nil => simp [splitChars]
  | cons c a ih =>
    rw [List.cons_append, splitChars, ih, splitChars]
    by_cases hc : c = sep
    · simp [hc]
    · simp only [hc, if_false]
      cases h : splitChars sep a with
      | nil => exact absurd h (splitChars_ne_nil sep a)
      | cons f fs => rfl

theorem joinChars_snoc (sep : Char) (e : List Char) :
    ∀ (l : List (List Char)), l ≠ [] → joinChars sep (l ++ [e]) = joinChars sep l ++ sep :: e := by
  intro l
  induction l with
  | nil => intro h; exact absurd rfl h
  | cons a l ih =>
    intro _
    cases l with
    | nil => rfl
    | cons b l =>
      have := ih (by simp)
      simp only [List.cons_append] at this ⊢
      simp [joinChars, this]

theorem joinChars_snoc_ne_nil (sep : Char) (e : List Char) (he : e ≠ []) :
    ∀ (l : List (List Char)), joinChars sep (l ++ [e]) ≠ [] := by
  intro l
  by_cases hl : l = []
  · subst hl; simpa [joinChars] using he
  · rw [joinChars_snoc sep e l hl]; simp

theorem cleanStep_proper (rooted : Bool) (kept : List (List Char)) (name : List Char)
    (h : properName name) : cleanStep rooted kept name = name :: kept := by
  obtain ⟨h1, h2, h3, _⟩ := h
  simp [cleanStep, h1, h2, h3]

theorem kept_append (rooted : Bool) (s name : List Char) (h : properName name) :
    (splitChars '/' (s ++ '/' :: name)).foldl (cleanStep rooted) []
      = name :: (splitChars '/' s).foldl (cleanStep rooted) [] := by
  rw [splitChars_append, splitChars_noSep '/' name h.2.2.2, List.foldl_append]
  simp [cleanStep_proper _ _ _ h]

theorem startsWith_append (s t p : List Char) (hs : s ≠ []) (hp : p.length ≤ 1) :
    startsWith (s ++ t) p = startsWith s p := by
  cases s with
  | nil => exact absurd rfl hs
  | cons c s =>
    cases p with
    | nil => rfl
    | cons d p =>
      cases p with
      | nil => simp [startsWith]
      | cons e p => simp at hp

theorem cleanChars_append (s name top : List Char) (rest : List (List Char)) (hs : s ≠ [])
    (htop : top ≠ [])
    (hk : (splitChars '/' s).foldl (cleanStep (startsWith s ['/'])) [] = top :: rest)
    (h : properName name) :
    cleanChars (s ++ '/' :: name) = cleanChars s ++ '/' :: name := by
  unfold cleanChars
  simp only [startsWith_append s _ ['/'] hs (by simp), kept_append _ s name h, hk,
    List.reverse_cons]
  rw [joinChars_snoc '/' name _ (by simp)]
  have hne := joinChars_snoc_ne_nil '/' top htop rest.reverse
  by_cases hr : startsWith s ['/'] = true
  · simp [hr]
  · simp [hr, hne]

theorem failedUploads_proper : properName failedUploadsDir.data := by
  unfold properName failedUploadsDir
  decide

theorem joinPathChars_failedUploads (dir name : List Char) (h : properName name) :
    joinPathChars [dir, failedUploadsDir.data, name]
      = joinPathChars [dir, failedUploadsDir.data] ++ '/' :: name := by
  have hfu := failedUploads_proper
  by_cases hd : dir = []
  · subst hd
    have e1 : joinPathChars [[], failedUploadsDir.data, name]
        = cleanChars (failedUploadsDir.data ++ '/' :: name) := by
      simp [joinPathChars, joinChars, hfu.1]
    have e2 : joinPathChars [[], failedUploadsDir.data] = cleanChars failedUploadsDir.data := by
      simp [joinPathChars, joinChars, hfu.1]
    rw [e1, e2]
    exact cleanChars_append _ name failedUploadsDir.data [] hfu.1 hfu.1 (by decide) h
  · have e1 : joinPathChars [dir, failedUploadsDir.data, name]
        = cleanChars ((dir ++ '/' :: failedUploadsDir.data) ++ '/' :: name) := by
      simp [joinPathChars, joinChars, hd]
    have e2 : joinPathChars [dir, failedUploadsDir.data]
        = cleanChars (dir ++ '/' :: failedUploadsDir.data) := by
      simp [joinPathChars, joinChars, hd]
    rw [e1, e2]
    exact cleanChars_append _ name failedUploadsDir.data _ (by simp) hfu.1
      (kept_append _ dir _ hfu) h

/-- The target of the rename is the file of the same name in the directory
`Join [dir, failedUploadsDir]`. -/
theorem failedUploads_split (filename : String)
    (hname : (Split filename).2 ≠ "" ∧ (Split filename).2 ≠ "." ∧ (Split filename).2 ≠ "..") :
    Split (Join [(Split filename).1, failedUploadsDir, (Split filename).2])
      = (Join [(Split filename).1, failedUploadsDir] ++ "/", (Split filename).2) := by
  have hp : properName (splitPathChars filename.data).2 := by
    obtain ⟨h1, h2, h3⟩ := hname
    refine ⟨?_, ?_, ?_, splitPathChars_snd_noSep _⟩
    · intro h; apply h1; simp [Split, h]
    · intro h; apply h2; simp [Split, h]
    · intro h; apply h3; simp [Split, h]
  have := joinPathChars_failedUploads (splitPathChars filename.data).1 _ hp
  simp only [Split, Join, List.map, this]
  rw [splitPathChars_append _ _ hp.2.2.2]
  simp [String.ext_iff]

theorem extractCPTVInfo_later (env : Env) (w : World) (filename : String) :
    Later w (extractCPTVInfo env w filename).2 := (extractCPTVInfo_delta env w filename).1

theorem IsAvailable_now (env : Env) (w w2 : World) (h : w2.now = w.now) :
    (BushnetAPI.IsAvailable env w2).1 = (BushnetAPI.IsAvailable env w).1 := by
  rw [IsAvailable_eq, IsAvailable_eq, h]
  cases resolvedAddress (env.avahi w.now) <;> rfl

theorem uploadFile_open_ok (env : Env) (w : World) (filename : String) (info : cptvInfo)
    (hopen : env.osOpen (w.now + 1) = .ok) :
    uploadFile env w filename info
      = match BushnetAPI.IsAvailable env
            ((w.emit (.callUploadFile filename)).emit (.osOpen filename)) with
        | (true, w) => BushnetAPI.UploadFile env w filename
        | (false, w) =>
          (env.uploadThermalRaw w.now, w.emit (.uploadThermalRaw info filename)) := by
  unfold uploadFile
  simp only [emit_now, hopen]

theorem uploadFile_state (env : Env) (w : World) (filename : String) (info : cptvInfo) :
    (uploadFile env w filename info).2.bushnet.state = w.bushnet.state := by
  unfold uploadFile
  simp only [emit_now]
  cases env.osOpen (w.now + 1) with
  | notExist e => rfl
  | otherErr e => rfl
  | ok =>
    simp only
    have hA := (IsAvailable_bushnet env
      ((w.emit (.callUploadFile filename)).emit (.osOpen filename))).1
    revert hA
    cases BushnetAPI.IsAvailable env
        ((w.emit (.callUploadFile filename)).emit (.osOpen filename)) with
    | mk b w2 =>
      intro hA
      cases b
      · exact hA
      · simp only [UploadFile_bushnet]
        exact hA

theorem afterAttempts_state (env : Env) (filename : String) (info : cptvInfo) :
    ∀ (k : Nat) (w : World),
      (afterAttempts env filename info k w).bushnet.state = w.bushnet.state := by
  intro k
  induction k with
  | zero => intro w; rfl
  | succ k ih =>
    intro w
    rw [afterAttempts_succ, ih, uploadFile_state]

theorem retryLoop_state (env : Env) (filename : String) (info : cptvInfo) :
    ∀ (n : Nat) (w : World),
      (retryLoop env filename info n w).2.bushnet.state = w.bushnet.state := by
  intro n
  induction n with
  | zero => intro w; rfl
  | succ n ih =>
    intro w
    rw [retryLoop_succ]
    have hu := uploadFile_state env w filename info
    revert hu
    cases uploadFile env w filename info with
    | mk err w1 =>
      intro hu
      cases err with
      | none => exact hu
      | some e => simp only; rw [ih]; exact hu

theorem uploadFileWithRetries_state (env : Env) (w : World) (filename : String) :
    (uploadFileWithRetries env w filename).2.bushnet.state = w.bushnet.state := by
  have hb := (extractCPTVInfo_delta env w filename).2.2
  cases hi : (extractCPTVInfo env w filename).1 with
  | error e =>
    rw [uploadFileWithRetries_error env w filename e hi]
    simp [hb]
  | ok info =>
    rw [uploadFileWithRetries_ok env w filename info hi]
    have hr := retryLoop_state env filename info 3 (extractCPTVInfo env w filename).2
    rw [hb] at hr
    revert hr
    cases retryLoop env filename info 3 (extractCPTVInfo env w filename).2 with
    | mk b w2 =>
      intro hr
      cases b <;> exact hr

theorem uploadFile_mkdirAll (env : Env) (m : Nat → Option Error) (w : World) (filename : String)
    (info : cptvInfo) :
    uploadFile { env with mkdirAll := m } w filename info = uploadFile env w filename info := rfl

theorem retryLoop_mkdirAll (env : Env) (m : Nat → Option Error) (filename : String)
    (info : cptvInfo) :
    ∀ (n : Nat) (w : World),
      retryLoop { env with mkdirAll := m } filename info n w = retryLoop env filename info n w := by
  intro n
  induction n with
  | zero => intro w; rfl
  | succ n ih =>
    intro w
    rw [retryLoop_succ, retryLoop_succ, uploadFile_mkdirAll]
    cases uploadFile env w filename info with
    | mk err w1 =>
      cases err with
      | none => rfl
      | some e => exact ih w1

theorem uploadFileWithRetries_mkdirAll (env : Env) (m : Nat → Option Error) (w : World)
    (filename : String) :
    uploadFileWithRetries { env with mkdirAll := m } w filename
      = uploadFileWithRetries env w filename := by
  unfold uploadFileWithRetries
  have he : extractCPTVInfo { env with mkdirAll := m } w filename
      = extractCPTVInfo env w filename := rfl
  rw [he]
  cases extractCPTVInfo env w filename with
  | mk r w1 =>
    cases r with
    | error e => rfl
    | ok info =>
      simp only [retryLoop_mkdirAll]

theorem uploadFilesLoop_mkdirAll (env : Env) (m : Nat → Option Error) :
    ∀ (files : List String) (w : World),
      uploadFilesLoop { env with mkdirAll := m } files w = uploadFilesLoop env files w := by
  intro files
  induction files with
  | nil => intro w; rfl
  | cons f files ih =>
    intro w
    unfold uploadFilesLoop
    rw [uploadFileWithRetries_mkdirAll]
    cases uploadFileWithRetries env w f with
    | mk err w1 =>
      cases err with
      | none => exact ih w1
      | some e => rfl

theorem runMainLoop_mkdirAll (env : Env) (m : Nat → Option Error) (directory : String) :
    ∀ (passes : Nat) (w : World),
      runMainLoop { env with mkdirAll := m } directory passes w
        = runMainLoop env directory passes w := by
  intro passes
  induction passes with
  | zero => intro w; rfl
  | succ n ih =>
    intro w
    unfold runMainLoop
    have hu : uploadFiles { env with mkdirAll := m } w directory = uploadFiles env w directory := by
      unfold uploadFiles
      exact uploadFilesLoop_mkdirAll env m _ _
    rw [hu]
    cases uploadFiles env w directory with
    | mk err w1 =>
      cases err with
      | none => exact ih _
      | some e => rfl

theorem runMain_mkdirAll (env : Env) (m : Nat → Option Error) (passes : Nat) :
    runMain { env with mkdirAll := m } passes = runMain env passes := by
  unfold runMain
  simp only [runMainLoop_mkdirAll]
  rfl

theorem retryLoop_cases (env : Env) (filename : String) (info : cptvInfo) :
    ∀ (n : Nat) (w : World),
      (retryLoop env filename info n w).1 = true
        ∨ ∀ k < n, attemptResult env filename info w k ≠ none := by
  intro n
  induction n with
  | zero => intro w; right; intro k hk; omega
  | succ n ih =>
    intro w
    rw [retryLoop_succ]
    cases hu : uploadFile env w filename info with
    | mk err w1 =>
      cases err with
      | none => left; rfl
      | some e =>
        simp only
        rcases ih w1 with h | h
        · left; exact h
        · right
          intro k hk
          cases k with
          | zero =>
            show (uploadFile env w filename info).1 ≠ none
            rw [hu]; simp
          | succ k =>
            rw [attemptResult_succ, hu]
            exact h k (by omega)

theorem cleanupOk_none (env : Env) (w : World) (filename : String)
    (h : cleanupOk env w filename) : (uploadFileWithRetries env w filename).1 = none := by
  unfold cleanupOk at h
  cases hi : (extractCPTVInfo env w filename).1 with
  | error e =>
    rw [hi] at h
    rw [uploadFileWithRetries_error env w filename e hi]
    exact h
  | ok info =>
    rw [hi] at h
    simp only at h
    rw [uploadFileWithRetries_ok env w filename info hi]
    rcases retryLoop_cases env filename info 3 (extractCPTVInfo env w filename).2 with hr | hr
    · revert hr
      cases retryLoop env filename info 3 (extractCPTVInfo env w filename).2 with
      | mk b w2 => intro hr; cases hr; rfl
    · rw [retryLoop_fail env filename info 3 _ hr]
      exact h hr

theorem uploadFilesLoop_cons (env : Env) (filename : String) (rest : List String) (w : World) :
    uploadFilesLoop env (filename :: rest) w
      = match uploadFileWithRetries env w filename with
        | (some err, w) => (some err, w)
        | (none, w) => uploadFilesLoop env rest w := rfl

theorem uploadFilesLoop_ok (env : Env) :
    ∀ (files : List String) (w : World), passOk env files w →
      uploadFilesLoop env files w
        = (none, files.foldl (fun w filename => (uploadFileWithRetries env w filename).2) w) := by
  intro files
  induction files with
  | nil => intro w _; rfl
  | cons f files ih =>
    intro w h
    obtain ⟨h1, h2⟩ := h
    have hn := cleanupOk_none env w f h1
    rw [List.foldl_cons, ← ih _ h2, uploadFilesLoop_cons]
    revert hn
    cases uploadFileWithRetries env w f with
    | mk err w1 => intro hn; cases hn; rfl

/-- When the attempt after `K - 1` failed ones is the first without error,
`uploadFileWithRetries` stops after it, deletes the file and returns nil. -/
theorem uploadFileWithRetries_success (env : Env) (w : World) (filename : String)
    (info : cptvInfo) (K : Nat) (hK1 : 1 ≤ K) (hK3 : K ≤ 3)
    (hinfo : (extractCPTVInfo env w filename).1 = .ok info)
    (hfail : ∀ k < K - 1,
      attemptResult env filename info (extractCPTVInfo env w filename).2 k ≠ none)
    (hsucc : attemptResult env filename info (extractCPTVInfo env w filename).2 (K - 1) = none) :
    (uploadFileWithRetries env w filename).1 = none
      ∧ (uploadFileWithRetries env w filename).2
          = (afterAttempts env filename info K (extractCPTVInfo env w filename).2).emit
              (.osRemove filename)
      ∧ (eventsSince w (uploadFileWithRetries env w filename).2).countP Event.isAttempt = K
      ∧ (eventsSince w (uploadFileWithRetries env w filename).2).countP Event.isRemove = 1
      ∧ (eventsSince w (uploadFileWithRetries env w filename).2).getLast?
          = some (.osRemove filename)
      ∧ (eventsSince w (uploadFileWithRetries env w filename).2).countP Event.isRename = 0 := by
  have hE := extractCPTVInfo_later env w filename
  obtain ⟨hA, h1, h2, h3⟩ := afterAttempts_count env filename info K (extractCPTVInfo env w filename).2
  have hL := later_trans hE hA
  have hev := eventsSince_emit hL (.osRemove filename)
  have hKK : K - 1 + 1 = K := by omega
  have hloop := retryLoop_success env filename info (K - 1) 3 _ (by omega) hfail hsucc
  rw [hKK] at hloop
  have hrun : uploadFileWithRetries env w filename
      = (none, (afterAttempts env filename info K (extractCPTVInfo env w filename).2).emit
            (.osRemove filename)) := by
    rw [uploadFileWithRetries_ok env w filename info hinfo, hloop]
  rw [hrun]
  simp only []
  rw [hev, eventsSince_trans hE hA]
  refine ⟨trivial, trivial, ?_, ?_, ?_, ?_⟩
  · rw [List.countP_append, List.countP_append, h1, extractCPTVInfo_count _ isAttempt_counted]
    simp [Event.isAttempt]
  · rw [List.countP_append, List.countP_append, h2, extractCPTVInfo_count _ isRemove_counted]
    rfl
  · simp
  · rw [List.countP_append, List.countP_append, h3, extractCPTVInfo_count _ isRename_counted]
    rfl

theorem uploadFile_notExist (env : Env) (w : World) (filename : String) (info : cptvInfo)
    (e : Error) (hgone : env.osOpen (w.now + 1) = .notExist e) :
    uploadFile env w filename info
      = (none, (w.emit (.callUploadFile filename)).emit (.osOpen filename)) := by
  unfold uploadFile
  simp only [emit_now, hgone]

/-! ## The claims -/

/-- C1: when metadata extraction succeeds and each of the three upload attempts
fails, `uploadFileWithRetries` makes exactly three attempts, deletes nothing,
and then, as its last act, renames the file to
`Join [dir, failedUploadsDir, name]`, where `(dir, name) = Split filename`;
for a file name other than the empty one, `.` and `..` that target has the
same name and lies in the directory `Join [dir, failedUploadsDir]`. -/
theorem C1_all_attempts_fail (env : Env) (w : World) (filename : String) (info : cptvInfo)
    (hinfo : (extractCPTVInfo env w filename).1 = .ok info)
    (hfail : ∀ k < 3, attemptResult env filename info (extractCPTVInfo env w filename).2 k ≠ none) :
    (uploadFileWithRetries env w filename).2
        = (afterAttempts env filename info 3 (extractCPTVInfo env w filename).2).emit
            (.osRename filename (Join [(Split filename).1, failedUploadsDir, (Split filename).2]))
      ∧ (eventsSince w (uploadFileWithRetries env w filename).2).countP Event.isAttempt = 3
      ∧ (eventsSince w (uploadFileWithRetries env w filename).2).countP Event.isRemove = 0
      ∧ (eventsSince w (uploadFileWithRetries env w filename).2).countP Event.isRename = 1
      ∧ (eventsSince w (uploadFileWithRetries env w filename).2).getLast?
          = some (.osRename filename
              (Join [(Split filename).1, failedUploadsDir, (Split filename).2]))
      ∧ ((Split filename).2 ≠ "" ∧ (Split filename).2 ≠ "." ∧ (Split filename).2 ≠ ".." →
          Split (Join [(Split filename).1, failedUploadsDir, (Split filename).2])
            = (Join [(Split filename).1, failedUploadsDir] ++ "/", (Split filename).2)) := by
  have hE := extractCPTVInfo_later env w filename
  obtain ⟨hA, h1, h2, h3⟩ := afterAttempts_count env filename info 3 (extractCPTVInfo env w filename).2
  have hL := later_trans hE hA
  have hev := eventsSince_emit hL
    (.osRename filename (Join [(Split filename).1, failedUploadsDir, (Split filename).2]))
  have hrun : uploadFileWithRetries env w filename
      = (env.osRename (afterAttempts env filename info 3 (extractCPTVInfo env w filename).2).now,
          (afterAttempts env filename info 3 (extractCPTVInfo env w filename).2).emit
            (.osRename filename (Join [(Split filename).1, failedUploadsDir, (Split filename).2]))) := by
    rw [uploadFileWithRetries_ok env w filename info hinfo, retryLoop_fail env filename info 3 _ hfail]
  rw [hrun]
  simp only []
  rw [hev, eventsSince_trans hE hA]
  refine ⟨trivial, ?_, ?_, ?_, ?_, failedUploads_split filename⟩
  · rw [List.countP_append, List.countP_append, h1, extractCPTVInfo_count _ isAttempt_counted]
    rfl
  · rw [List.countP_append, List.countP_append, h2, extractCPTVInfo_count _ isRemove_counted]
    rfl
  · rw [List.countP_append, List.countP_append, h3, extractCPTVInfo_count _ isRename_counted]
    rfl
  · simp

/-- C1 at work: with the peer unreachable and the remote API refusing every
upload, `d.cptv` is tried three times, the remote API being called each time,
and then renamed to `/var/spool/cptv/failed-uploads/d.cptv`. -/
theorem C1_all_attempts_fail_witness :
    (extractCPTVInfo remoteDownEnv startWorld "/var/spool/cptv/d.cptv").1 = .ok tenSeconds
      ∧ (∀ k < 3, attemptResult remoteDownEnv "/var/spool/cptv/d.cptv" tenSeconds
            (extractCPTVInfo remoteDownEnv startWorld "/var/spool/cptv/d.cptv").2 k ≠ none)
      ∧ (eventsSince startWorld
            (uploadFileWithRetries remoteDownEnv startWorld "/var/spool/cptv/d.cptv").2).countP
          Event.isAttempt = 3
      ∧ (eventsSince startWorld
            (uploadFileWithRetries remoteDownEnv startWorld "/var/spool/cptv/d.cptv").2).countP
          Event.isRemove = 0
      ∧ (eventsSince startWorld
            (uploadFileWithRetries remoteDownEnv startWorld "/var/spool/cptv/d.cptv").2).getLast?
          = some (.osRename "/var/spool/cptv/d.cptv" "/var/spool/cptv/failed-uploads/d.cptv")
      ∧ Split "/var/spool/cptv/failed-uploads/d.cptv"
          = ("/var/spool/cptv/failed-uploads" ++ "/", "d.cptv")
      ∧ (eventsSince startWorld
            (uploadFileWithRetries remoteDownEnv startWorld "/var/spool/cptv/d.cptv").2).countP
          Event.isRemoteUpload = 3 :=
  have h := C1_all_attempts_fail remoteDownEnv startWorld "/var/spool/cptv/d.cptv" tenSeconds rfl
    (by decide)
  ⟨rfl, by decide, h.2.1, h.2.2.1, h.2.2.2.2.1, h.2.2.2.2.2 (by decide), by decide⟩

/-- C2: when metadata extraction succeeds and the first attempt without error
is attempt `K`, with `1 ≤ K ≤ 3`, `uploadFileWithRetries` makes exactly `K`
attempts, then deletes the file as its last act, renames nothing and returns
nil. -/
theorem C2_success_on_attempt_K (env : Env) (w : World) (filename : String) (info : cptvInfo)
    (K : Nat) (hK1 : 1 ≤ K) (hK3 : K ≤ 3)
    (hinfo : (extractCPTVInfo env w filename).1 = .ok info)
    (hfail : ∀ k < K - 1,
      attemptResult env filename info (extractCPTVInfo env w filename).2 k ≠ none)
    (hsucc : attemptResult env filename info (extractCPTVInfo env w filename).2 (K - 1) = none) :
    (uploadFileWithRetries env w filename).1 = none
      ∧ (uploadFileWithRetries env w filename).2
          = (afterAttempts env filename info K (extractCPTVInfo env w filename).2).emit
              (.osRemove filename)
      ∧ (eventsSince w (uploadFileWithRetries env w filename).2).countP Event.isAttempt = K
      ∧ (eventsSince w (uploadFileWithRetries env w filename).2).countP Event.isRemove = 1
      ∧ (eventsSince w (uploadFileWithRetries env w filename).2).getLast?
          = some (.osRemove filename)
      ∧ (eventsSince w (uploadFileWithRetries env w filename).2).countP Event.isRename = 0 :=
  uploadFileWithRetries_success env w filename info K hK1 hK3 hinfo hfail hsucc

/-- C2 at work: the remote API refuses the first upload of `d.cptv` and accepts
the second; the file is tried twice, deleted and not renamed. -/
theorem C2_success_on_attempt_K_witness :
    (extractCPTVInfo remoteFlakyEnv startWorld "/var/spool/cptv/d.cptv").1 = .ok tenSeconds
      ∧ (∀ k < 2 - 1, attemptResult remoteFlakyEnv "/var/spool/cptv/d.cptv" tenSeconds
            (extractCPTVInfo remoteFlakyEnv startWorld "/var/spool/cptv/d.cptv").2 k ≠ none)
      ∧ attemptResult remoteFlakyEnv "/var/spool/cptv/d.cptv" tenSeconds
            (extractCPTVInfo remoteFlakyEnv startWorld "/var/spool/cptv/d.cptv").2 (2 - 1) = none
      ∧ (uploadFileWithRetries remoteFlakyEnv startWorld "/var/spool/cptv/d.cptv").1 = none
      ∧ (eventsSince startWorld
            (uploadFileWithRetries remoteFlakyEnv startWorld "/var/spool/cptv/d.cptv").2).countP
          Event.isAttempt = 2
      ∧ (eventsSince startWorld
            (uploadFileWithRetries remoteFlakyEnv startWorld "/var/spool/cptv/d.cptv").2).getLast?
          = some (.osRemove "/var/spool/cptv/d.cptv")
      ∧ (eventsSince startWorld
            (uploadFileWithRetries remoteFlakyEnv startWorld "/var/spool/cptv/d.cptv").2).countP
          Event.isRename = 0 :=
  have h := C2_success_on_attempt_K remoteFlakyEnv startWorld "/var/spool/cptv/d.cptv" tenSeconds 2
    (by decide) (by decide) rfl (by decide) (by decide)
  ⟨rfl, by decide, by decide, h.1, h.2.2.1, h.2.2.2.2.1, h.2.2.2.2.2⟩

/-- C3: when metadata extraction fails, whatever the peer and the other
operations do, `uploadFileWithRetries` opens the file (and perhaps parses it),
calls `os.Remove` on it, and returns the result of that call: no upload
attempt, no probe of the peer, no peer or remote upload, no HTTP request and no
rename. -/
theorem C3_extraction_fails (env : Env) (w : World) (filename : String) (e : Error)
    (hinfo : (extractCPTVInfo env w filename).1 = .error e) :
    (uploadFileWithRetries env w filename).1 = env.osRemove (extractCPTVInfo env w filename).2.now
      ∧ (eventsSince w (uploadFileWithRetries env w filename).2
            = [.osOpen filename, .osRemove filename]
          ∨ eventsSince w (uploadFileWithRetries env w filename).2
            = [.osOpen filename, .cptvRead filename, .osRemove filename])
      ∧ (eventsSince w (uploadFileWithRetries env w filename).2).countP Event.isAttempt = 0
      ∧ (eventsSince w (uploadFileWithRetries env w filename).2).countP Event.isProbe = 0
      ∧ (eventsSince w (uploadFileWithRetries env w filename).2).countP Event.isPeerUpload = 0
      ∧ (eventsSince w (uploadFileWithRetries env w filename).2).countP Event.isRemoteUpload = 0
      ∧ (eventsSince w (uploadFileWithRetries env w filename).2).countP Event.isHTTP = 0
      ∧ (eventsSince w (uploadFileWithRetries env w filename).2).countP Event.isRename = 0 := by
  have hE := extractCPTVInfo_later env w filename
  have hev := eventsSince_emit hE (.osRemove filename)
  rw [uploadFileWithRetries_error env w filename e hinfo]
  simp only []
  rw [hev]
  rcases (extractCPTVInfo_delta env w filename).2.1 with h | h <;> rw [h] <;>
    simp [Event.isAttempt, Event.isProbe, Event.isPeerUpload, Event.isRemoteUpload, Event.isHTTP,
      Event.isRename]

/-- C3 at work: `b.cptv` fails to parse; it is opened, parsed and deleted, and
nothing else happens. -/
theorem C3_extraction_fails_witness :
    (extractCPTVInfo corruptEnv startWorld "/var/spool/cptv/b.cptv").1 = .error "unexpected EOF"
      ∧ eventsSince startWorld
            (uploadFileWithRetries corruptEnv startWorld "/var/spool/cptv/b.cptv").2
          = [.osOpen "/var/spool/cptv/b.cptv", .cptvRead "/var/spool/cptv/b.cptv",
             .osRemove "/var/spool/cptv/b.cptv"]
      ∧ (eventsSince startWorld
            (uploadFileWithRetries corruptEnv startWorld "/var/spool/cptv/b.cptv").2).countP
          Event.isAttempt = 0
      ∧ (eventsSince startWorld
            (uploadFileWithRetries corruptEnv startWorld "/var/spool/cptv/b.cptv").2).countP
          Event.isRename = 0 :=
  have h := C3_extraction_fails corruptEnv startWorld "/var/spool/cptv/b.cptv" "unexpected EOF" rfl
  ⟨rfl, by decide, h.2.2.1, h.2.2.2.2.2.2.2⟩

/-- C4: in an upload attempt whose `os.Open` succeeds, `uploadFile`
probes the peer exactly once and invokes exactly one destination: the peer
upload when that probe answers true, and otherwise the remote API raw upload
with the extracted metadata.  The probe's answer is the same in any world with
the same number of earlier events, whatever earlier probes answered and
whatever address is cached. -/
theorem C4_destination_per_attempt (env : Env) (w : World) (filename : String) (info : cptvInfo)
    (hopen : env.osOpen (w.now + 1) = .ok) :
    (eventsSince w (uploadFile env w filename info).2).countP Event.isProbe = 1
      ∧ ((BushnetAPI.IsAvailable env
            ((w.emit (.callUploadFile filename)).emit (.osOpen filename))).1 = true →
          uploadFile env w filename info
              = BushnetAPI.UploadFile env
                  (BushnetAPI.IsAvailable env
                    ((w.emit (.callUploadFile filename)).emit (.osOpen filename))).2 filename
            ∧ (eventsSince w (uploadFile env w filename info).2).countP Event.isPeerUpload = 1
            ∧ (eventsSince w (uploadFile env w filename info).2).countP Event.isRemoteUpload = 0)
      ∧ ((BushnetAPI.IsAvailable env
            ((w.emit (.callUploadFile filename)).emit (.osOpen filename))).1 = false →
          (eventsSince w (uploadFile env w filename info).2).countP Event.isPeerUpload = 0
            ∧ (eventsSince w (uploadFile env w filename info).2).countP Event.isRemoteUpload = 1
            ∧ (eventsSince w (uploadFile env w filename info).2).getLast?
                = some (.uploadThermalRaw info filename))
      ∧ (∀ w2 : World, w2.now = w.now →
          (BushnetAPI.IsAvailable env
              ((w2.emit (.callUploadFile filename)).emit (.osOpen filename))).1
            = (BushnetAPI.IsAvailable env
                ((w.emit (.callUploadFile filename)).emit (.osOpen filename))).1) := by
  have hd := (uploadFile_delta env w filename info).2
  rw [hopen] at hd
  simp only at hd
  refine ⟨?_, ?_, ?_, ?_⟩
  · rw [countP_counted _ isProbe_counted, hd]
    by_cases hA : (BushnetAPI.IsAvailable env
        ((w.emit (.callUploadFile filename)).emit (.osOpen filename))).1 = true <;>
      simp [hA, Event.isProbe, List.countP_cons]
  · intro hA
    refine ⟨?_, ?_, ?_⟩
    · rw [uploadFile_open_ok env w filename info hopen]
      revert hA
      cases BushnetAPI.IsAvailable env
          ((w.emit (.callUploadFile filename)).emit (.osOpen filename)) with
      | mk b w2 => intro hA; cases hA; rfl
    · rw [countP_counted _ isPeerUpload_counted, hd]
      simp [hA, Event.isPeerUpload, List.countP_cons]
    · rw [countP_counted _ isRemoteUpload_counted, hd]
      simp [hA, Event.isRemoteUpload, List.countP_cons]
  · intro hA
    refine ⟨?_, ?_, ?_⟩
    · rw [countP_counted _ isPeerUpload_counted, hd]
      simp [hA, Event.isPeerUpload, List.countP_cons]
    · rw [countP_counted _ isRemoteUpload_counted, hd]
      simp [hA, Event.isRemoteUpload, List.countP_cons]
    · rw [uploadFile_open_ok env w filename info hopen]
      have hL := later_trans (later_trans (later_emit w (.callUploadFile filename))
        (later_emit _ (.osOpen filename))) (IsAvailable_delta env
          ((w.emit (.callUploadFile filename)).emit (.osOpen filename))).1
      revert hA hL
      cases BushnetAPI.IsAvailable env
          ((w.emit (.callUploadFile filename)).emit (.osOpen filename)) with
      | mk b w2 =>
        intro hA hL
        cases hA
        simp only []
        rw [eventsSince_emit hL]
        simp
  · intro w2 h
    exact IsAvailable_now env _ _ (by simp [h])

/-- C4 at work: with the peer present, an attempt on `c.cptv` probes once and
uploads to the peer, not to the remote API. -/
theorem C4_destination_per_attempt_witness :
    peerUpEnv.osOpen (startWorld.now + 1) = .ok
      ∧ (BushnetAPI.IsAvailable peerUpEnv
            ((startWorld.emit (.callUploadFile "/var/spool/cptv/c.cptv")).emit
              (.osOpen "/var/spool/cptv/c.cptv"))).1 = true
      ∧ (eventsSince startWorld
            (uploadFile peerUpEnv startWorld "/var/spool/cptv/c.cptv" tenSeconds).2).countP
          Event.isProbe = 1
      ∧ (eventsSince startWorld
            (uploadFile peerUpEnv startWorld "/var/spool/cptv/c.cptv" tenSeconds).2).countP
          Event.isPeerUpload = 1
      ∧ (eventsSince startWorld
            (uploadFile peerUpEnv startWorld "/var/spool/cptv/c.cptv" tenSeconds).2).countP
          Event.isRemoteUpload = 0 :=
  have h := C4_destination_per_attempt peerUpEnv startWorld "/var/spool/cptv/c.cptv" tenSeconds rfl
  ⟨rfl, by decide, h.1, (h.2.1 (by decide)).2.1, (h.2.1 (by decide)).2.2⟩

/-- C4, unreadable file: a file that exists but cannot be opened ("too many open
files", not a does-not-exist error) makes `uploadFile` return the error with no
probe of the peer and no destination invoked. -/
theorem C4_counterexample :
    unreadableEnv.osOpen (startWorld.now + 1) = .otherErr "too many open files"
      ∧ (uploadFile unreadableEnv startWorld "/var/spool/cptv/c.cptv" tenSeconds).1
          = some "too many open files"
      ∧ eventsSince startWorld
            (uploadFile unreadableEnv startWorld "/var/spool/cptv/c.cptv" tenSeconds).2
          = [.callUploadFile "/var/spool/cptv/c.cptv", .osOpen "/var/spool/cptv/c.cptv"]
      ∧ (eventsSince startWorld
            (uploadFile unreadableEnv startWorld "/var/spool/cptv/c.cptv" tenSeconds).2).countP
          Event.isProbe = 0
      ∧ (eventsSince startWorld
            (uploadFile unreadableEnv startWorld "/var/spool/cptv/c.cptv" tenSeconds).2).countP
          Event.isPeerUpload = 0
      ∧ (eventsSince startWorld
            (uploadFile unreadableEnv startWorld "/var/spool/cptv/c.cptv" tenSeconds).2).countP
          Event.isRemoteUpload = 0 := by
  decide

/-- C5: on every finite sequence of probe results the peer-presence loop sends
as many triggers as the sequence has unavailable-to-available transitions, the
peer counting as unavailable before the first poll; three available polls in a
row give one trigger. -/
theorem C5_one_trigger_per_arrival :
    (∀ polls : List Bool, peerPresenceLoop polls = risingEdges false polls)
      ∧ peerPresenceLoop [true, true, true] = 1 := by
  have h : ∀ polls : List Bool, peerPresenceLoop polls = risingEdges false polls
      ∧ peerPresentLoop polls = risingEdges true polls := by
    intro polls
    induction polls with
    | nil => exact ⟨rfl, rfl⟩
    | cons b polls ih =>
      cases b
      · exact ⟨by simp [peerPresenceLoop, risingEdges, ih.1],
          by simp [peerPresentLoop, risingEdges, ih.1]⟩
      · exact ⟨by simp [peerPresenceLoop, risingEdges, ih.2],
          by simp [peerPresentLoop, risingEdges, ih.2]⟩
  exact ⟨fun polls => (h polls).1, by decide⟩

/-- C6: when the resolver fails, or its output contains
"Failed to resolve host name", or its output does not split on tab into exactly
two fields, `IsAvailable` returns false, leaves the `BushnetAPI` struct (so the
cached `serverURL`) as it was, and does nothing but run the resolver: no HTTP
request. -/
theorem C6_unresolved_peer (env : Env) (w : World)
    (h : (∃ e, env.avahi w.now = .error e)
      ∨ ∃ s, env.avahi w.now = .ok s
          ∧ (containsChars s.data "Failed to resolve host name".data = true
              ∨ (splitChars '\t' s.data).length ≠ 2)) :
    (BushnetAPI.IsAvailable env w).1 = false
      ∧ (BushnetAPI.IsAvailable env w).2.bushnet = w.bushnet
      ∧ eventsSince w (BushnetAPI.IsAvailable env w).2 = [.avahiResolve w.bushnet.localName]
      ∧ (eventsSince w (BushnetAPI.IsAvailable env w).2).countP Event.isHTTP = 0 := by
  have hr : resolvedAddress (env.avahi w.now) = none := by
    rcases h with ⟨e, he⟩ | ⟨s, hs, hc | hl⟩
    · rw [he]; rfl
    · rw [hs]; simp [resolvedAddress, hc]
    · rw [hs]; simp [resolvedAddress, hl]
  rw [IsAvailable_eq, hr]
  simp [eventsSince, Event.isHTTP]

/-- C6 at work: the resolver exits with an error; `IsAvailable` answers false,
keeps the struct and makes no HTTP request. -/
theorem C6_unresolved_peer_witness :
    ((∃ e, calmEnv.avahi startWorld.now = .error e)
        ∨ ∃ s, calmEnv.avahi startWorld.now = .ok s
            ∧ (containsChars s.data "Failed to resolve host name".data = true
                ∨ (splitChars '\t' s.data).length ≠ 2))
      ∧ (BushnetAPI.IsAvailable calmEnv startWorld).1 = false
      ∧ (BushnetAPI.IsAvailable calmEnv startWorld).2.bushnet = startWorld.bushnet
      ∧ eventsSince startWorld (BushnetAPI.IsAvailable calmEnv startWorld).2
          = [.avahiResolve "bushnet.local"] :=
  have hyp : (∃ e, calmEnv.avahi startWorld.now = .error e)
      ∨ ∃ s, calmEnv.avahi startWorld.now = .ok s
          ∧ (containsChars s.data "Failed to resolve host name".data = true
              ∨ (splitChars '\t' s.data).length ≠ 2) := Or.inl ⟨"exit status 1", rfl⟩
  have h := C6_unresolved_peer calmEnv startWorld hyp
  ⟨hyp, h.1, h.2.1, h.2.2.1⟩

/-- C7: nothing assigns `BushnetAPI.state`.  It has the
value given by `NewBushnetAPI`, "FINISHED_UPLOADING", before, between and after
the upload attempts of `uploadFileWithRetries`; a round of the announcer made
after a failed attempt, with the peer present, sends `/finished`. -/
theorem C7_state_never_uploading :
    (∀ (env : Env) (w : World) (filename : String) (info : cptvInfo) (k : Nat),
        (afterAttempts env filename info k (extractCPTVInfo env w filename).2).bushnet.state
          = w.bushnet.state)
      ∧ (∀ (env : Env) (w : World) (filename : String),
          (uploadFileWithRetries env w filename).2.bushnet.state = w.bushnet.state)
      ∧ (∀ (localName : String) (port : Int),
          (NewBushnetAPI localName port).state = "FINISHED_UPLOADING")
      ∧ (extractCPTVInfo peerRejectsEnv startWorld "/var/spool/cptv/c.cptv").1 = .ok tenSeconds
      ∧ (afterAttempts peerRejectsEnv "/var/spool/cptv/c.cptv" tenSeconds 1
            (extractCPTVInfo peerRejectsEnv startWorld "/var/spool/cptv/c.cptv").2).bushnet.state
          = "FINISHED_UPLOADING"
      ∧ (BushnetAPI.startSignalStep peerRejectsEnv
            (afterAttempts peerRejectsEnv "/var/spool/cptv/c.cptv" tenSeconds 1
              (extractCPTVInfo peerRejectsEnv startWorld "/var/spool/cptv/c.cptv").2)).trace.getLast?
          = some (.httpGet ⟨"192.168.1.5", 8080, "/finished"⟩) := by
  refine ⟨?_, uploadFileWithRetries_state, fun _ _ => rfl, rfl, by decide, by decide⟩
  intro env w filename info k
  rw [afterAttempts_state, (extractCPTVInfo_delta env w filename).2.2]

/-- C8: when no deletion of a file whose metadata extraction failed
and no rename into failed-uploads fails during the pass, `uploadFiles` returns
nil and has run `uploadFileWithRetries` on every file of the listing, in
listing order, whatever metadata extraction, the upload attempts and the
deletion after a successful upload do. -/
theorem C8_pass_runs_every_file (env : Env) (w : World) (directory : String)
    (hok : passOk env (env.glob w.now) (w.emit (.glob (Join [directory, cptvGlob])))) :
    (uploadFiles env w directory).1 = none
      ∧ (uploadFiles env w directory).2
          = (env.glob w.now).foldl (fun w filename => (uploadFileWithRetries env w filename).2)
              (w.emit (.glob (Join [directory, cptvGlob]))) := by
  unfold uploadFiles
  simp only
  rw [uploadFilesLoop_ok env _ _ hok]
  exact ⟨rfl, rfl⟩

/-- C8 at work: of two pending files the first uploads to the remote API and
the second fails to parse; both are handled, in order, and the pass returns
nil. -/
theorem C8_pass_runs_every_file_witness :
    passOk twoFilesEnv (twoFilesEnv.glob startWorld.now)
        (startWorld.emit (.glob (Join ["/var/spool/cptv", cptvGlob])))
      ∧ (uploadFiles twoFilesEnv startWorld "/var/spool/cptv").1 = none
      ∧ (uploadFiles twoFilesEnv startWorld "/var/spool/cptv").2.trace
          = [.glob "/var/spool/cptv/*.cptv",
             .osOpen "/var/spool/cptv/a.cptv",
             .cptvRead "/var/spool/cptv/a.cptv",
             .callUploadFile "/var/spool/cptv/a.cptv",
             .osOpen "/var/spool/cptv/a.cptv",
             .avahiResolve "bushnet.local",
             .uploadThermalRaw tenSeconds "/var/spool/cptv/a.cptv",
             .osRemove "/var/spool/cptv/a.cptv",
             .osOpen "/var/spool/cptv/b.cptv",
             .cptvRead "/var/spool/cptv/b.cptv",
             .osRemove "/var/spool/cptv/b.cptv"] :=
  have hyp : passOk twoFilesEnv (twoFilesEnv.glob startWorld.now)
      (startWorld.emit (.glob (Join ["/var/spool/cptv", cptvGlob]))) :=
    ⟨fun _ => rfl, rfl, trivial⟩
  have h := C8_pass_runs_every_file twoFilesEnv startWorld "/var/spool/cptv" hyp
  ⟨hyp, h.1, by decide⟩

/-- C8, failing clean-up: with two files pending, a failed deletion of the
unparsable first file, or a failed rename of the first file into
failed-uploads, makes `uploadFiles` return that error with the second file
untouched. -/
theorem C8_counterexample :
    (uploadFiles stuckDeleteEnv startWorld "/var/spool/cptv").1 = some "permission denied"
      ∧ (uploadFiles stuckDeleteEnv startWorld "/var/spool/cptv").2.trace
          = [.glob "/var/spool/cptv/*.cptv",
             .osOpen "/var/spool/cptv/a.cptv",
             .cptvRead "/var/spool/cptv/a.cptv",
             .osRemove "/var/spool/cptv/a.cptv"]
      ∧ (uploadFiles stuckRenameEnv startWorld "/var/spool/cptv").1
          = some "no such file or directory"
      ∧ (uploadFiles stuckRenameEnv startWorld "/var/spool/cptv").2.trace.getLast?
          = some (.osRename "/var/spool/cptv/a.cptv" "/var/spool/cptv/failed-uploads/a.cptv")
      ∧ (uploadFiles stuckRenameEnv startWorld "/var/spool/cptv").2.trace.count
          (.osOpen "/var/spool/cptv/b.cptv") = 0 := by
  decide

/-- C9: `runMain` does not look at the result of
`os.MkdirAll`.  Its result and events are the same whatever that call
returns; with a failing `os.MkdirAll` and an otherwise working start-up it goes
on to watch the directory and runs an upload pass. -/
theorem C9_mkdir_error_ignored :
    (∀ (env : Env) (m : Nat → Option Error) (passes : Nat),
        runMain { env with mkdirAll := m } passes = runMain env passes)
      ∧ mkdirFailsEnv.mkdirAll 3 = some "mkdir: permission denied"
      ∧ runMain mkdirFailsEnv 1
          = (none,
              [.parseConfigFile "/etc/thermal-uploader.yaml",
               .readPassword "/etc/thermal-uploader-priv.yaml",
               .newAPI,
               .mkdirAll "/var/spool/cptv/failed-uploads",
               .notifyWatch "/var/spool/cptv",
               .glob "/var/spool/cptv/*.cptv",
               .recvTrigger]) := by
  refine ⟨runMain_mkdirAll, rfl, by decide⟩

/-- C10: when metadata extraction succeeded, the attempts before attempt
`j + 1` failed and `os.Open` in attempt `j + 1` reports that the file does not
exist, that call of `uploadFile` returns nil having only opened the file (no
probe, no peer upload, no remote upload), and `uploadFileWithRetries` makes no
further attempt, renames nothing and returns nil. -/
theorem C10_file_disappeared (env : Env) (w : World) (filename : String) (info : cptvInfo)
    (j : Nat) (e : Error) (hj : j < 3)
    (hinfo : (extractCPTVInfo env w filename).1 = .ok info)
    (hfail : ∀ k < j, attemptResult env filename info (extractCPTVInfo env w filename).2 k ≠ none)
    (hgone : env.osOpen
        ((afterAttempts env filename info j (extractCPTVInfo env w filename).2).now + 1)
      = .notExist e) :
    (uploadFile env (afterAttempts env filename info j (extractCPTVInfo env w filename).2)
        filename info).1 = none
      ∧ eventsSince (afterAttempts env filename info j (extractCPTVInfo env w filename).2)
          (uploadFile env (afterAttempts env filename info j (extractCPTVInfo env w filename).2)
            filename info).2
          = [.callUploadFile filename, .osOpen filename]
      ∧ (uploadFileWithRetries env w filename).1 = none
      ∧ (eventsSince w (uploadFileWithRetries env w filename).2).countP Event.isAttempt = j + 1
      ∧ (eventsSince w (uploadFileWithRetries env w filename).2).countP Event.isRename = 0 := by
  have hu := uploadFile_notExist env _ filename info e hgone
  have hsucc : attemptResult env filename info (extractCPTVInfo env w filename).2 (j + 1 - 1)
      = none := by
    show (uploadFile env _ filename info).1 = none
    rw [Nat.add_sub_cancel, hu]
  obtain ⟨h1, _, h3, _, _, h6⟩ := uploadFileWithRetries_success env w filename info (j + 1)
    (by omega) (by omega) hinfo (by simpa using hfail) hsucc
  refine ⟨by rw [hu], ?_, h1, h3, h6⟩
  rw [hu]
  simp [eventsSince]

/-- C10 at work: `c.cptv` parses but is gone when the first attempt opens it;
one attempt is made, without a probe, and the procedure returns nil without a
rename. -/
theorem C10_file_disappeared_witness :
    (extractCPTVInfo vanishedEnv startWorld "/var/spool/cptv/c.cptv").1 = .ok tenSeconds
      ∧ vanishedEnv.osOpen
          ((afterAttempts vanishedEnv "/var/spool/cptv/c.cptv" tenSeconds 0
            (extractCPTVInfo vanishedEnv startWorld "/var/spool/cptv/c.cptv").2).now + 1)
          = .notExist "no such file or directory"
      ∧ (uploadFileWithRetries vanishedEnv startWorld "/var/spool/cptv/c.cptv").1 = none
      ∧ (eventsSince startWorld
            (uploadFileWithRetries vanishedEnv startWorld "/var/spool/cptv/c.cptv").2).countP
          Event.isAttempt = 0 + 1
      ∧ (eventsSince startWorld
            (uploadFileWithRetries vanishedEnv startWorld "/var/spool/cptv/c.cptv").2).countP
          Event.isRename = 0
      ∧ (eventsSince startWorld
            (uploadFileWithRetries vanishedEnv startWorld "/var/spool/cptv/c.cptv").2).countP
          Event.isProbe = 0 :=
  have h := C10_file_disappeared vanishedEnv startWorld "/var/spool/cptv/c.cptv" tenSeconds 0
    "no such file or directory" (by decide) rfl (by decide) rfl
  ⟨rfl, rfl, h.2.2.1, h.2.2.2.1, h.2.2.2.2, by decide⟩

end ThermalUploader
